import Mathlib

/-!
Verification development for the credit-contract segmentation engine
(`analysis/segmentation.py`).

The shallow embedding below translates the engine's pure data
transformations into Lean: pandas frames become lists of records, floats
become rationals, missing values (`NaN` after `pd.to_numeric(...,
errors="coerce")`, or `None`) become `Option`, and the opaque fitted
components from scikit-learn (`StandardScaler`+`FactorAnalysis`,
`KMeans.fit_predict`, `silhouette_score`) are parameters of the functions
that call them, so that every piece of control flow written in the
repository itself is modelled exactly.
-/

/-- Python `str.upper` (as used by `.str.upper()`): upper-case every
character of the string.  Modelled over the string's character data with
`Char.toUpper` (ASCII case mapping, which covers the modality and risk
codes the pipeline handles). -/
def upperString (s : String) : String := ⟨s.data.map Char.toUpper⟩

/-- Python `str.strip` (as used by `.str.strip()`): drop whitespace from
both ends of the string. -/
def stripString (s : String) : String :=
  ⟨(((s.data.dropWhile Char.isWhitespace).reverse).dropWhile Char.isWhitespace).reverse⟩

/-- `RISK_ORDER` from `segmentation.py`: the fixed 12-level risk scale,
best to worst. -/
def RISK_ORDER : List String :=
  ["AA", "A", "B", "BB", "C", "CC", "D", "DD", "E", "EE", "F", "G"]

/-- `RISK_MAP`: position of a rating in `RISK_ORDER` (0 = best); `none`
when the rating is not on the scale (pandas `.map` yields `NaN`). -/
def RISK_MAP (s : String) : Option ℕ := RISK_ORDER.findIdx? (· = s)

/-- `pandas.Series.median()`: missing values are skipped by the caller
(we receive only the present values); the median of an even number of
values is the mean of the two middle order statistics; the median of an
empty series is `NaN` (here `none`). -/
def pdMedian (xs : List ℚ) : Option ℚ :=
  match xs with
  | [] => none
  | _ =>
    let s := xs.insertionSort (· ≤ ·)
    let n := s.length
    if n % 2 = 1 then some (s.getD (n / 2) 0)
    else some ((s.getD (n / 2 - 1) 0 + s.getD (n / 2) 0) / 2)

/-- One row of the `clientes_carteira` source query (`TARGET_COLUMNS`).
The four raw numeric drivers are `Option ℚ`: `none` stands for a value
that is missing after `pd.to_numeric(..., errors="coerce")`. -/
structure Contract where
  cliente_id : String
  cliente_nome : String
  cliente_perfil : String
  agencia_nome : String
  carteira_nome : String
  linha : String
  risco_inicial : String
  cob_garantia : Option ℚ
  mod_bacen : Option String
  atraso : Option ℚ
  valor_contrato : Option ℚ
  saldo_atual : Option ℚ
deriving DecidableEq

/-- `work["risco_inicial"].str.upper().str.strip()` applied to one row. -/
def riskNormalized (c : Contract) : String := stripString (upperString c.risco_inicial)

/-- `work["risco_inicial"].map(RISK_MAP)` applied to one row. -/
def riskScore (c : Contract) : Option ℕ := RISK_MAP (riskNormalized c)

/-- The keep-condition of
`work.dropna(subset=["risco_inicial_score", "cob_garantia", "atraso"])`. -/
def keepRow (c : Contract) : Bool :=
  (riskScore c).isSome && c.cob_garantia.isSome && c.atraso.isSome

/-- `work["mod_bacen"].fillna("DESCONHECIDO").astype(str).str.upper()`
applied to one row. -/
def fillMod (c : Contract) : String := upperString (c.mod_bacen.getD "DESCONHECIDO")

/-- One cleaned Feature Row of the prepared frame: the retained contract
after normalisation, scoring, the dropna filter and median imputation.
`valor_contrato`/`saldo_atual` stay `Option` because `fillna` with a
`NaN` median (every surviving value missing) leaves them missing. -/
structure FeatureRow where
  cliente_id : String
  cliente_nome : String
  cliente_perfil : String
  agencia_nome : String
  carteira_nome : String
  linha : String
  risco_inicial : String
  risco_inicial_score : ℕ
  cob_garantia : ℚ
  atraso : ℚ
  valor_contrato : Option ℚ
  saldo_atual : Option ℚ
  mod_bacen : String
deriving DecidableEq

/-- Build the Feature Row for one surviving contract, given the cohort's
imputation medians for `valor_contrato` and `saldo_atual`. -/
def mkFeatureRow (vcMed saMed : Option ℚ) (c : Contract) : FeatureRow :=
  { cliente_id := c.cliente_id
    cliente_nome := c.cliente_nome
    cliente_perfil := c.cliente_perfil
    agencia_nome := c.agencia_nome
    carteira_nome := c.carteira_nome
    linha := c.linha
    risco_inicial := riskNormalized c
    risco_inicial_score := (riskScore c).getD 0
    cob_garantia := c.cob_garantia.getD 0
    atraso := c.atraso.getD 0
    valor_contrato := match c.valor_contrato with | some v => some v | none => vcMed
    saldo_atual := match c.saldo_atual with | some v => some v | none => saMed
    mod_bacen := fillMod c }

/-- `prepare_segment`: normalise the risk rating, coerce numerics, fill
and upper-case the modality, drop rows missing the load-bearing fields,
impute `valor_contrato`/`saldo_atual` with the median over the surviving
rows of this cohort, one-hot encode the modality (the indicator columns
are recorded by `prepared_columns` below). -/
def prepare_segment (df : List Contract) : List FeatureRow :=
  let survivors := df.filter keepRow
  let vcMed := pdMedian (survivors.filterMap (·.valor_contrato))
  let saMed := pdMedian (survivors.filterMap (·.saldo_atual))
  survivors.map (mkFeatureRow vcMed saMed)

/-- `choose_factor_components`: `min(3, max(1, min(5, n_features,
n_samples - 1)))`, computed over ℤ because Python's `n_samples - 1` can
be negative. -/
def choose_factor_components (n_features n_samples : ℕ) : ℤ :=
  min 3 (max 1 (min 5 (min (n_features : ℤ) ((n_samples : ℤ) - 1))))

/-- `len(set(labels)) < 2`: the candidate fit collapsed to fewer than 2
distinct labels. -/
def degenerateFit (labels : List ℕ) : Bool := labels.dedup.length < 2

/-- The candidate loop of `pick_cluster_count`: for each candidate `k`
in order, skip a degenerate fit, otherwise update the running best on a
strictly greater silhouette score. `fit k` stands for
`KMeans(n_clusters=k, n_init=20, random_state=42).fit_predict(factors)`
and `sil k` for `silhouette_score(factors, fit k)`. -/
def pickLoop (fit : ℕ → List ℕ) (sil : ℕ → ℚ) : List ℕ → ℕ × ℚ → ℕ × ℚ
  | [], best => best
  | k :: ks, (bk, bs) =>
    if degenerateFit (fit k) then pickLoop fit sil ks (bk, bs)
    else if bs < sil k then pickLoop fit sil ks (k, sil k)
    else pickLoop fit sil ks (bk, bs)

/-- `pick_cluster_count`: `max_k = min(6, n_samples - 1)`; if `max_k < 2`
return `(1, 0.0)`; otherwise fold the candidate loop over
`range(2, max_k + 1)` starting from best `(1, 0.0)`.  (For
`n_samples = 0` Python's `max_k` is `-1` and Lean's is `0`; both are
`< 2`, so the early return agrees.) -/
def pick_cluster_count (fit : ℕ → List ℕ) (sil : ℕ → ℚ) (nSamples : ℕ) : ℕ × ℚ :=
  if min 6 (nSamples - 1) < 2 then (1, 0)
  else pickLoop fit sil (List.range' 2 (min 6 (nSamples - 1) - 1)) (1, 0)

/-- `factors.mean(axis=0, keepdims=True)` for a non-empty factor matrix:
the per-component mean vector (component count taken from the first
row). -/
def meanVector (rows : List (List ℚ)) : List ℚ :=
  match rows with
  | [] => []
  | r :: _ => (List.range r.length).map fun j =>
      (rows.map fun row => row.getD j 0).sum / (rows.length : ℚ)

/-- The result record of `cluster_factors`. -/
structure ClusterResult where
  labels : List ℕ
  centers : List (List ℚ)
  silhouette : ℚ
deriving DecidableEq

/-- `cluster_factors`: for `n_clusters <= 1` return all-zero labels, the
mean factor vector as the single center and silhouette `0.0`; otherwise
fit KMeans (`n_init=50`), and compute the silhouette only when more than
one distinct label survives, else leave it `0.0`.  `km k` stands for the
final `KMeans(...).fit_predict`, `kmCenters k` for its
`cluster_centers_`, `silf labels` for `silhouette_score(factors,
labels)`. -/
def cluster_factors (km : ℕ → List ℕ) (silf : List ℕ → ℚ) (kmCenters : ℕ → List (List ℚ))
    (factors : List (List ℚ)) (n_clusters : ℕ) : ClusterResult :=
  if n_clusters ≤ 1 then
    { labels := List.replicate factors.length 0
      centers := [meanVector factors]
      silhouette := 0 }
  else
    let labels := km n_clusters
    { labels := labels
      centers := kmCenters n_clusters
      silhouette := if 1 < labels.dedup.length then silf labels else 0 }

/-- `round(x, 2)` on a rational: round to 2 decimal places. -/
def round2 (x : ℚ) : ℚ := ((round (x * 100) : ℤ) : ℚ) / 100

/-- `Series.mean()` over the present values of a column. -/
def listMean (xs : List ℚ) : ℚ := xs.sum / (xs.length : ℚ)

/-- One row of the Cluster Summary frame built by `summarize_clusters`. -/
structure SummaryRow where
  cluster : ℕ
  total_clientes : ℕ
  risco_inicial_medio : ℚ
  cobertura_media : ℚ
  atraso_medio : ℚ
  valor_contrato_medio : ℚ
  saldo_atual_medio : ℚ
deriving DecidableEq

/-- `sorted(df["cluster"].unique())`: the distinct labels in ascending
order. -/
def sortedUniqueLabels (labels : List ℕ) : List ℕ :=
  (labels.dedup).insertionSort (· ≤ ·)

/-- `df[df["cluster"] == cluster_id]` on the label-paired rows. -/
def clusterRows (paired : List (FeatureRow × ℕ)) (cid : ℕ) : List (FeatureRow × ℕ) :=
  paired.filter fun p => p.2 = cid

/-- The summary record appended for one `cluster_id` by
`summarize_clusters`: `nunique` distinct clients and the five driver
means rounded to 2 decimals (pandas `mean()` skips missing values, hence
the `filterMap` on the two imputable columns). -/
def summaryRowFor (paired : List (FeatureRow × ℕ)) (cid : ℕ) : SummaryRow :=
  let sub := clusterRows paired cid
  { cluster := cid
    total_clientes := ((sub.map fun p => p.1.cliente_id).dedup).length
    risco_inicial_medio := round2 (listMean (sub.map fun p => (p.1.risco_inicial_score : ℚ)))
    cobertura_media := round2 (listMean (sub.map fun p => p.1.cob_garantia))
    atraso_medio := round2 (listMean (sub.map fun p => p.1.atraso))
    valor_contrato_medio := round2 (listMean (sub.filterMap fun p => p.1.valor_contrato))
    saldo_atual_medio := round2 (listMean (sub.filterMap fun p => p.1.saldo_atual)) }

/-- `summarize_clusters`: attach the labels to the rows positionally
(`df["cluster"] = labels`) and emit one summary row per distinct label,
in ascending label order. -/
def summarize_clusters (rows : List FeatureRow) (labels : List ℕ) : List SummaryRow :=
  (sortedUniqueLabels labels).map (summaryRowFor (rows.zip labels))

/-- `TARGET_COLUMNS` from `segmentation.py`: the source query's columns,
in order. -/
def TARGET_COLUMNS : List String :=
  ["cliente_id", "cliente_nome", "cliente_perfil", "agencia_nome", "carteira_nome", "linha",
   "risco_inicial", "cob_garantia", "mod_bacen", "atraso", "valor_contrato", "saldo_atual"]

/-- The distinct modality values of the prepared rows, sorted — the
categories `pd.get_dummies` derives its indicator columns from. -/
def oneHotValues (rows : List FeatureRow) : List String :=
  ((rows.map (·.mod_bacen)).dedup).insertionSort (· ≤ ·)

/-- The column list of the prepared frame returned by `prepare_segment`:
the source columns, then the appended `risco_inicial_score`, then the
`pd.get_dummies(..., prefix="mod")` indicator columns. -/
def prepared_columns (rows : List FeatureRow) : List String :=
  TARGET_COLUMNS ++ ["risco_inicial_score"] ++ (oneHotValues rows).map (fun v => "mod_" ++ v)

/-- The five numeric driver columns (`feature_cols` literal set in
`build_segment_outputs`). -/
def NUMERIC_DRIVER_COLUMNS : List String :=
  ["risco_inicial_score", "cob_garantia", "atraso", "valor_contrato", "saldo_atual"]

/-- Python `str.startswith` over character data. -/
def pyStartswith (s pre : String) : Bool := pre.data.isPrefixOf s.data

/-- The feature-column predicate of `build_segment_outputs`:
`(col.startswith("mod_") and col != "mod_bacen") or col in {the five
numeric drivers}`. -/
def isFeatureCol (col : String) : Bool :=
  (pyStartswith col "mod_" && col != "mod_bacen") || NUMERIC_DRIVER_COLUMNS.contains col

/-- The `feature_cols` list comprehension of `build_segment_outputs`,
filtering the prepared frame's columns in order. -/
def feature_cols_of (cols : List String) : List String := cols.filter isFeatureCol

/-- The value of one feature column for one prepared row: the numeric
drivers read their fields (a still-missing imputable value feeds the
model as `0` in place of `NaN`), an indicator column `mod_<v>` is `1`
exactly on rows whose modality is `v`. -/
def featureValue (r : FeatureRow) (col : String) : ℚ :=
  if col = "risco_inicial_score" then (r.risco_inicial_score : ℚ)
  else if col = "cob_garantia" then r.cob_garantia
  else if col = "atraso" then r.atraso
  else if col = "valor_contrato" then (r.valor_contrato).getD 0
  else if col = "saldo_atual" then (r.saldo_atual).getD 0
  else if col = "mod_" ++ r.mod_bacen then 1 else 0

/-- `prepared[feature_cols]` as a numeric matrix. -/
def featureMatrix (rows : List FeatureRow) (cols : List String) : List (List ℚ) :=
  rows.map fun r => cols.map (featureValue r)

/-- The opaque fitted components from scikit-learn, parameters of the
pipeline: `faTransform X m` is `FactorAnalysis(n_components=m,
random_state=42).fit_transform(StandardScaler().fit_transform(X))`;
`kmeansLabels X k nInit` / `kmeansCenters X k nInit` are
`KMeans(n_clusters=k, n_init=nInit, random_state=42)`'s `fit_predict`
labels and `cluster_centers_`; `silScore X labels` is
`silhouette_score(X, labels)`. -/
structure MLOracle where
  faTransform : List (List ℚ) → ℕ → List (List ℚ)
  kmeansLabels : List (List ℚ) → ℕ → ℕ → List ℕ
  kmeansCenters : List (List ℚ) → ℕ → ℕ → List (List ℚ)
  silScore : List (List ℚ) → List ℕ → ℚ

/-- The externally visible side effects of one `build_segment_outputs`
call: how many output CSV files were written and whether a run was
persisted to the database. -/
structure SegmentEffects where
  filesWritten : ℕ
  runPersisted : Bool
deriving DecidableEq

/-- `ensure_minimum_samples`: `len(df) >= threshold` (the caller passes
the default threshold 25). -/
def ensure_minimum_samples (df : List Contract) (threshold : ℕ) : Bool :=
  threshold ≤ df.length

/-- `build_segment_outputs`: skip (no output, no files, no persisted
run) when the cohort has fewer than 25 raw records or fewer than 5
cleaned Feature Rows; otherwise run the factor extraction, the cluster
search, the final clustering, write the two CSVs and, when an engine is
supplied, persist the run.  The returned value is the labelled prepared
table (`None` on a skip). -/
def build_segment_outputs (o : MLOracle) (perfil : String) (df : List Contract)
    (hasEngine : Bool) : Option (List FeatureRow × List ℕ) × SegmentEffects :=
  if !(ensure_minimum_samples df 25) then (none, ⟨0, false⟩)
  else
    let prepared := prepare_segment df
    if prepared.length < 5 then (none, ⟨0, false⟩)
    else
      let featureCols := feature_cols_of (prepared_columns prepared)
      let nComp := (choose_factor_components featureCols.length prepared.length).toNat
      let factors := o.faTransform (featureMatrix prepared featureCols) nComp
      let fitSearch := fun k => o.kmeansLabels factors k 20
      let searched := pick_cluster_count fitSearch
        (fun k => o.silScore factors (fitSearch k)) factors.length
      let cres := cluster_factors (fun k => o.kmeansLabels factors k 50)
        (o.silScore factors) (fun k => o.kmeansCenters factors k 50) factors searched.1
      (some (prepared, cres.labels), ⟨2, hasEngine⟩)

/-! Concrete inputs used by the witness and counterexample theorems
below. -/

/-- A trivial oracle standing in for the fitted scikit-learn components
in concrete evaluations. -/
def trivialOracle : MLOracle :=
  { faTransform := fun _ _ => []
    kmeansLabels := fun _ _ _ => []
    kmeansCenters := fun _ _ _ => []
    silScore := fun _ _ => 0 }

/-- A concrete KMeans stand-in for the selector witnesses: candidate `k`
splits the points into `k` distinct labels. -/
def wFit : ℕ → List ℕ := fun k => List.range k

/-- A concrete silhouette stand-in that scores every candidate below
zero. -/
def wSilNeg : ℕ → ℚ := fun _ => -1

/-- A concrete contract whose modality code is missing and which
survives the cleaning filter. -/
def cNoMod : Contract :=
  { cliente_id := "c1"
    cliente_nome := "n1"
    cliente_perfil := "p1"
    agencia_nome := "a1"
    carteira_nome := "w1"
    linha := "l1"
    risco_inicial := "AA"
    cob_garantia := some 1
    mod_bacen := none
    atraso := some 0
    valor_contrato := none
    saldo_atual := none }

/-- A concrete cleaned Feature Row used by the summariser
counterexample. -/
def exRow (cid : String) : FeatureRow :=
  { cliente_id := cid
    cliente_nome := "n"
    cliente_perfil := "p"
    agencia_nome := "a"
    carteira_nome := "w"
    linha := "l"
    risco_inicial := "AA"
    risco_inicial_score := 0
    cob_garantia := 1
    atraso := 0
    valor_contrato := some 10
    saldo_atual := some 5
    mod_bacen := "X"
    }

/-- Two retained records of the same client, assigned to two different
clusters. -/
def exRows : List FeatureRow := [exRow "A", exRow "A"]

/-- The labels attaching `exRows`'s two records to clusters 0 and 1. -/
def exLabels : List ℕ := [0, 1]

/-- The (cluster label, client identifier) pair of one labelled record
— the granularity at which the summariser's per-cluster `nunique`
counts accumulate. -/
def labelClientPair (p : FeatureRow × ℕ) : ℕ × String := (p.2, p.1.cliente_id)

/-- A concrete clean contract used to build witness cohorts. -/
def wContract (i : String) : Contract :=
  { cliente_id := i
    cliente_nome := "n"
    cliente_perfil := "p"
    agencia_nome := "a"
    carteira_nome := "w"
    linha := "l"
    risco_inicial := "A"
    cob_garantia := some 1
    mod_bacen := some "x"
    atraso := some 2
    valor_contrato := some 3
    saldo_atual := some 4 }

/-- A concrete cohort of 5 clean contracts (5 Feature Rows survive). -/
def wCohort : List Contract :=
  [wContract "1", wContract "2", wContract "3", wContract "4", wContract "5"]

/-! Helper lemmas. -/

theorem charToNat_ofNat_valid {n : Nat} (h : n.isValidChar) : (Char.ofNat n).toNat = n := by
  rw [Char.ofNat, dif_pos h]
  rfl

/-- `Char.toUpper` never produces a lowercase ASCII letter. -/
theorem toUpper_not_lowercase (c : Char) :
    ¬(97 ≤ (Char.toUpper c).toNat ∧ (Char.toUpper c).toNat ≤ 122) := by
  unfold Char.toUpper
  by_cases h : 97 ≤ c.toNat ∧ c.toNat ≤ 122
  · rw [if_pos (by exact ⟨h.1, h.2⟩)]
    rw [charToNat_ofNat_valid (by left; omega)]
    omega
  · rw [if_neg (by exact fun hc => h ⟨hc.1, hc.2⟩)]
    omega

/-- An upper-cased string is never the lowercase word `"bacen"`, so no
`pd.get_dummies` indicator column of the upper-cased modality can be
named `"mod_bacen"`. -/
theorem upperString_ne_bacen (s : String) : upperString s ≠ "bacen" := by
  intro h
  have hdata : s.data.map Char.toUpper = "bacen".data := congrArg String.data h
  match s, hdata with
  | ⟨c :: rest⟩, hdata =>
    have hc : Char.toUpper c = 'b' := by
      have := congrArg (fun l => l.headI) hdata
      simpa using this
    have hnat : (Char.toUpper c).toNat = 98 := by rw [hc]; decide
    exact toUpper_not_lowercase c (by omega)

/-! C8 — component-count formula of the Factor Extractor. -/

/-- C8 counterexample: for a feature table with 5 columns and a single
row, `choose_factor_components` returns 1, while the claimed formula
`min(3, min(5, n_features, n_samples - 1))` gives 0 — the claim omits
the `max(1, ...)` floor the code applies. -/
theorem choose_factor_components_formula_fails_one_sample :
    choose_factor_components 5 1 ≠ min 3 (min 5 (min (5 : ℤ) ((1 : ℤ) - 1))) := by
  decide

/-- C8 (amended): the component count equals
`min(3, max(1, min(5, n_features, n_samples - 1)))`; it never exceeds
the policy cap 3 nor the hard ceiling 5, it does not exceed the feature
count when at least one feature exists, it does not exceed
`n_samples - 1` when at least two samples exist, and on those inputs
(`n_features ≥ 1`, `n_samples ≥ 2`) it coincides with the claim's
floor-free formula. -/
theorem choose_factor_components_spec (n_features n_samples : ℕ) :
    choose_factor_components n_features n_samples =
      min 3 (max 1 (min 5 (min (n_features : ℤ) ((n_samples : ℤ) - 1)))) ∧
    choose_factor_components n_features n_samples ≤ 3 ∧
    choose_factor_components n_features n_samples ≤ 5 ∧
    (1 ≤ n_features → choose_factor_components n_features n_samples ≤ (n_features : ℤ)) ∧
    (2 ≤ n_samples → choose_factor_components n_features n_samples ≤ (n_samples : ℤ) - 1) ∧
    (1 ≤ n_features → 2 ≤ n_samples →
      choose_factor_components n_features n_samples =
        min 3 (min 5 (min (n_features : ℤ) ((n_samples : ℤ) - 1)))) := by
  unfold choose_factor_components
  refine ⟨rfl, ?_, ?_, ?_, ?_, ?_⟩
  · omega
  · omega
  · intro h
    have : (1 : ℤ) ≤ (n_features : ℤ) := by exact_mod_cast h
    omega
  · intro h
    have : (2 : ℤ) ≤ (n_samples : ℤ) := by exact_mod_cast h
    omega
  · intro h1 h2
    have h1' : (1 : ℤ) ≤ (n_features : ℤ) := by exact_mod_cast h1
    have h2' : (2 : ℤ) ≤ (n_samples : ℤ) := by exact_mod_cast h2
    omega

/-- Witness for C8's amended theorem at a concrete shape (7 features,
10 samples): the floor-free formula applies and gives 3. -/
theorem choose_factor_components_spec_witness :
    choose_factor_components 7 10 = min 3 (min 5 (min (7 : ℤ) ((10 : ℤ) - 1))) :=
  (choose_factor_components_spec 7 10).2.2.2.2.2 (by decide) (by decide)

/-! C4 — degenerate branch of the Partitioner. -/

/-- C4: whenever the chosen cluster count is at most 1,
`cluster_factors` labels every record 0, returns the mean factor vector
as the single cluster center, and reports silhouette exactly 0 without
computing it. -/
theorem cluster_factors_degenerate (km : ℕ → List ℕ) (silf : List ℕ → ℚ)
    (kmCenters : ℕ → List (List ℚ)) (factors : List (List ℚ)) (n_clusters : ℕ)
    (h : n_clusters ≤ 1) :
    (cluster_factors km silf kmCenters factors n_clusters).labels =
      List.replicate factors.length 0 ∧
    (cluster_factors km silf kmCenters factors n_clusters).labels.length = factors.length ∧
    (∀ l ∈ (cluster_factors km silf kmCenters factors n_clusters).labels, l = 0) ∧
    (cluster_factors km silf kmCenters factors n_clusters).centers = [meanVector factors] ∧
    (cluster_factors km silf kmCenters factors n_clusters).silhouette = 0 := by
  rw [cluster_factors, if_pos h]
  refine ⟨rfl, ?_, ?_, rfl, rfl⟩
  · exact List.length_replicate _ _
  · intro l hl
    exact List.eq_of_mem_replicate hl

/-- Witness for C4 at a concrete 2×2 factor matrix and k = 1. -/
theorem cluster_factors_degenerate_witness :
    (cluster_factors (fun _ => []) (fun _ => 0) (fun _ => []) [[1, 2], [3, 4]] 1).labels =
      List.replicate 2 0 ∧
    (cluster_factors (fun _ => []) (fun _ => 0) (fun _ => []) [[1, 2], [3, 4]] 1).labels.length
      = 2 ∧
    (∀ l ∈ (cluster_factors (fun _ => []) (fun _ => 0) (fun _ => []) [[1, 2], [3, 4]] 1).labels,
      l = 0) ∧
    (cluster_factors (fun _ => []) (fun _ => 0) (fun _ => []) [[1, 2], [3, 4]] 1).centers =
      [meanVector [[1, 2], [3, 4]]] ∧
    (cluster_factors (fun _ => []) (fun _ => 0) (fun _ => []) [[1, 2], [3, 4]] 1).silhouette
      = 0 :=
  cluster_factors_degenerate (fun _ => []) (fun _ => 0) (fun _ => []) [[1, 2], [3, 4]] 1
    (by decide)

/-! C2 — the insufficient-data skip of the pipeline. -/

/-- C2: a cohort with fewer than 25 raw records, or with fewer than 5
cleaned Feature Rows, produces no output at all: the result is `none`,
no file is written and no run is persisted.  The function returns
normally (a skip, not an error). -/
theorem build_segment_outputs_skip (o : MLOracle) (perfil : String) (df : List Contract)
    (hasEngine : Bool) (h : df.length < 25 ∨ (prepare_segment df).length < 5) :
    build_segment_outputs o perfil df hasEngine = (none, ⟨0, false⟩) := by
  rw [build_segment_outputs]
  by_cases h25 : ensure_minimum_samples df 25
  · have hlen : ¬(df.length < 25) := by
      simp only [ensure_minimum_samples, decide_eq_true_eq] at h25
      omega
    have h5 : (prepare_segment df).length < 5 := h.resolve_left hlen
    rw [h25]
    simp only [Bool.not_true, Bool.false_eq_true, if_false]
    rw [if_pos h5]
  · rw [Bool.not_eq_true] at h25
    rw [h25]
    simp only [Bool.not_false, if_true]

/-- Witness for C2: the empty cohort (0 < 25 raw records) is skipped. -/
theorem build_segment_outputs_skip_witness :
    build_segment_outputs trivialOracle "perfil" [] false = (none, ⟨0, false⟩) :=
  build_segment_outputs_skip trivialOracle "perfil" [] false (Or.inl (by decide))

/-! C6 — the modality imputation sentinel. -/

/-- C6 counterexample: a surviving contract with a missing modality code
is imputed with the literal `"DESCONHECIDO"`, not with the claimed
literal `"UNKNOWN"`. -/
theorem modality_sentinel_is_not_unknown :
    (prepare_segment [cNoMod]).map (·.mod_bacen) = ["DESCONHECIDO"] ∧
    ("DESCONHECIDO" : String) ≠ "UNKNOWN" := by
  constructor
  · decide
  · decide

/-- C6 (amended): every retained record's modality is
`fillna("DESCONHECIDO")` followed by upper-casing — in particular a
missing modality becomes exactly the literal `"DESCONHECIDO"` — and the
one-hot categories (`oneHotValues`) are formed from these filled,
upper-cased values. -/
theorem prepare_segment_modality_imputation (df : List Contract) :
    List.Forall₂
      (fun c r => r.mod_bacen = upperString (c.mod_bacen.getD "DESCONHECIDO") ∧
        (c.mod_bacen = none → r.mod_bacen = "DESCONHECIDO"))
      (df.filter keepRow) (prepare_segment df) := by
  rw [prepare_segment]
  rw [List.forall₂_map_right_iff]
  rw [List.forall₂_same]
  intro c _
  refine ⟨rfl, ?_⟩
  intro hna
  show fillMod c = "DESCONHECIDO"
  rw [fillMod, hna]
  decide

/-! C7 — per-cohort median imputation. -/

/-- C7: for every cohort, each retained record keeps its present
`valor_contrato`/`saldo_atual`, and a missing one is imputed with the
median of the respective column computed over the present values of the
surviving rows of this cohort only (the median the code computes after
the dropna filter, from nothing but this cohort's rows). -/
theorem prepare_segment_median_imputation (df : List Contract) :
    List.Forall₂
      (fun c r =>
        (c.valor_contrato = none →
          r.valor_contrato = pdMedian ((df.filter keepRow).filterMap (·.valor_contrato))) ∧
        (∀ v, c.valor_contrato = some v → r.valor_contrato = some v) ∧
        (c.saldo_atual = none →
          r.saldo_atual = pdMedian ((df.filter keepRow).filterMap (·.saldo_atual))) ∧
        (∀ v, c.saldo_atual = some v → r.saldo_atual = some v))
      (df.filter keepRow) (prepare_segment df) := by
  rw [prepare_segment]
  rw [List.forall₂_map_right_iff]
  rw [List.forall₂_same]
  intro c _
  refine ⟨?_, ?_, ?_, ?_⟩
  · intro hna
    simp only [mkFeatureRow]
    rw [hna]
  · intro v hv
    simp only [mkFeatureRow]
    rw [hv]
  · intro hna
    simp only [mkFeatureRow]
    rw [hna]
  · intro v hv
    simp only [mkFeatureRow]
    rw [hv]

/-! C1 and C10 — the Cluster Selector search. -/

/-- Invariant of the candidate loop of `pick_cluster_count`, for a
strictly increasing candidate list: the running best score never
decreases; every non-degenerate candidate scores at most the final best
score; and either no update happened (the initial best is returned and
every non-degenerate candidate scored at most the initial score), or
the returned count is a non-degenerate candidate whose score is the
final best, strictly above the initial score, with every earlier
non-degenerate candidate strictly below it (the strict greater-than
tie-break). -/
theorem pickLoop_spec (fit : ℕ → List ℕ) (sil : ℕ → ℚ) (L : List ℕ)
    (hL : L.Sorted (· < ·)) (bk : ℕ) (bs : ℚ) :
    bs ≤ (pickLoop fit sil L (bk, bs)).2 ∧
    (∀ k ∈ L, degenerateFit (fit k) = false → sil k ≤ (pickLoop fit sil L (bk, bs)).2) ∧
    ((pickLoop fit sil L (bk, bs) = (bk, bs) ∧
        ∀ k ∈ L, degenerateFit (fit k) = false → sil k ≤ bs) ∨
      ((pickLoop fit sil L (bk, bs)).1 ∈ L ∧
        degenerateFit (fit (pickLoop fit sil L (bk, bs)).1) = false ∧
        sil (pickLoop fit sil L (bk, bs)).1 = (pickLoop fit sil L (bk, bs)).2 ∧
        bs < (pickLoop fit sil L (bk, bs)).2 ∧
        ∀ k ∈ L, k < (pickLoop fit sil L (bk, bs)).1 → degenerateFit (fit k) = false →
          sil k < (pickLoop fit sil L (bk, bs)).2)) := by
  induction L generalizing bk bs with
  | nil => simp [pickLoop]
  | cons a ks ih =>
    have hsort := List.sorted_cons.mp hL
    by_cases hd : degenerateFit (fit a)
    · have hstep : pickLoop fit sil (a :: ks) (bk, bs) = pickLoop fit sil ks (bk, bs) := by
        rw [pickLoop, if_pos hd]
      obtain ⟨ih1, ih2, ih3⟩ := ih hsort.2 bk bs
      rw [hstep]
      refine ⟨ih1, ?_, ?_⟩
      · intro k hk hkd
        rcases List.mem_cons.mp hk with rfl | hk'
        · rw [hd] at hkd
          exact absurd hkd (by simp)
        · exact ih2 k hk' hkd
      · rcases ih3 with ⟨heq, hall⟩ | ⟨hmem, hnd, hsil, hbs, hprev⟩
        · left
          refine ⟨heq, ?_⟩
          intro k hk hkd
          rcases List.mem_cons.mp hk with rfl | hk'
          · rw [hd] at hkd
            exact absurd hkd (by simp)
          · exact hall k hk' hkd
        · right
          refine ⟨List.mem_cons_of_mem _ hmem, hnd, hsil, hbs, ?_⟩
          intro k hk hklt hkd
          rcases List.mem_cons.mp hk with rfl | hk'
          · rw [hd] at hkd
            exact absurd hkd (by simp)
          · exact hprev k hk' hklt hkd
    · rw [Bool.not_eq_true] at hd
      by_cases hup : bs < sil a
      · have hstep : pickLoop fit sil (a :: ks) (bk, bs) = pickLoop fit sil ks (a, sil a) := by
          rw [pickLoop, if_neg (by simp [hd]), if_pos hup]
        obtain ⟨ih1, ih2, ih3⟩ := ih hsort.2 a (sil a)
        rw [hstep]
        refine ⟨le_of_lt (lt_of_lt_of_le hup ih1), ?_, ?_⟩
        · intro k hk hkd
          rcases List.mem_cons.mp hk with rfl | hk'
          · exact ih1
          · exact ih2 k hk' hkd
        · right
          rcases ih3 with ⟨heq, hall⟩ | ⟨hmem, hnd, hsil, hbs, hprev⟩
          · rw [heq]
            refine ⟨List.mem_cons_self _ _, hd, rfl, hup, ?_⟩
            intro k hk hklt hkd
            rcases List.mem_cons.mp hk with rfl | hk'
            · exact absurd hklt (lt_irrefl _)
            · exact absurd hklt (not_lt.mpr (le_of_lt (hsort.1 k hk')))
          · refine ⟨List.mem_cons_of_mem _ hmem, hnd, hsil, lt_trans hup hbs, ?_⟩
            intro k hk hklt hkd
            rcases List.mem_cons.mp hk with rfl | hk'
            · exact hbs
            · exact hprev k hk' hklt hkd
      · have hup' : sil a ≤ bs := not_lt.mp hup
        have hstep : pickLoop fit sil (a :: ks) (bk, bs) = pickLoop fit sil ks (bk, bs) := by
          rw [pickLoop, if_neg (by simp [hd]), if_neg hup]
        obtain ⟨ih1, ih2, ih3⟩ := ih hsort.2 bk bs
        rw [hstep]
        refine ⟨ih1, ?_, ?_⟩
        · intro k hk hkd
          rcases List.mem_cons.mp hk with rfl | hk'
          · exact le_trans hup' ih1
          · exact ih2 k hk' hkd
        · rcases ih3 with ⟨heq, hall⟩ | ⟨hmem, hnd, hsil, hbs, hprev⟩
          · left
            refine ⟨heq, ?_⟩
            intro k hk hkd
            rcases List.mem_cons.mp hk with rfl | hk'
            · exact hup'
            · exact hall k hk' hkd
          · right
            refine ⟨List.mem_cons_of_mem _ hmem, hnd, hsil, hbs, ?_⟩
            intro k hk hklt hkd
            rcases List.mem_cons.mp hk with rfl | hk'
            · exact lt_of_le_of_lt hup' hbs
            · exact hprev k hk' hklt hkd

/-- C1: the Cluster Selector searches candidates `k = 2..min(6,
n_samples-1)`: if that bound is below 2 it returns `(1, 0)` without
searching; if every candidate's fit is degenerate (fewer than 2 distinct
labels) it returns `(1, 0)`; every non-degenerate candidate's silhouette
is at most the returned score; and a returned count other than 1 is a
non-degenerate candidate whose silhouette equals the returned (positive)
score while every earlier non-degenerate candidate scored strictly
less — the strict greater-than update, under which the first candidate
to reach a score beats later equal scores. -/
theorem pick_cluster_count_spec (fit : ℕ → List ℕ) (sil : ℕ → ℚ) (n : ℕ) :
    (min 6 (n - 1) < 2 → pick_cluster_count fit sil n = (1, 0)) ∧
    ((∀ k, 2 ≤ k → k ≤ min 6 (n - 1) → degenerateFit (fit k) = true) →
      pick_cluster_count fit sil n = (1, 0)) ∧
    (∀ k, 2 ≤ k → k ≤ min 6 (n - 1) → degenerateFit (fit k) = false →
      sil k ≤ (pick_cluster_count fit sil n).2) ∧
    ((pick_cluster_count fit sil n).1 ≠ 1 →
      2 ≤ (pick_cluster_count fit sil n).1 ∧
      (pick_cluster_count fit sil n).1 ≤ min 6 (n - 1) ∧
      degenerateFit (fit (pick_cluster_count fit sil n).1) = false ∧
      sil (pick_cluster_count fit sil n).1 = (pick_cluster_count fit sil n).2 ∧
      0 < (pick_cluster_count fit sil n).2 ∧
      ∀ k, 2 ≤ k → k < (pick_cluster_count fit sil n).1 → degenerateFit (fit k) = false →
        sil k < (pick_cluster_count fit sil n).2) := by
  by_cases hsmall : min 6 (n - 1) < 2
  · have hres : pick_cluster_count fit sil n = (1, 0) := by
      rw [pick_cluster_count, if_pos hsmall]
    refine ⟨fun _ => hres, fun _ => hres, ?_, ?_⟩
    · intro k hk2 hkle _
      exact absurd hk2 (by omega)
    · rw [hres]
      intro h1
      exact absurd rfl h1
  · have hres : pick_cluster_count fit sil n =
        pickLoop fit sil (List.range' 2 (min 6 (n - 1) - 1)) (1, 0) := by
      rw [pick_cluster_count, if_neg hsmall]
    have hmem : ∀ k, k ∈ List.range' 2 (min 6 (n - 1) - 1) ↔
        (2 ≤ k ∧ k ≤ min 6 (n - 1)) := by
      intro k
      rw [List.mem_range'_1]
      omega
    obtain ⟨h1, h2, h3⟩ :=
      pickLoop_spec fit sil (List.range' 2 (min 6 (n - 1) - 1))
        (List.pairwise_lt_range' 2 (min 6 (n - 1) - 1)) 1 (0 : ℚ)
    rw [hres]
    refine ⟨fun h => absurd h hsmall, ?_, ?_, ?_⟩
    · intro hall
      rcases h3 with ⟨heq, _⟩ | ⟨hmem', hnd, _, _, _⟩
      · exact heq
      · obtain ⟨hk2, hkle⟩ := (hmem _).mp hmem'
        rw [hall _ hk2 hkle] at hnd
        exact absurd hnd (by simp)
    · intro k hk2 hkle hkd
      exact h2 k ((hmem k).mpr ⟨hk2, hkle⟩) hkd
    · intro hne
      rcases h3 with ⟨heq, _⟩ | ⟨hmem', hnd, hsil, hbs, hprev⟩
      · rw [heq] at hne
        exact absurd rfl hne
      · obtain ⟨hk2, hkle⟩ := (hmem _).mp hmem'
        refine ⟨hk2, hkle, hnd, hsil, hbs, ?_⟩
        intro k hk2' hklt hkd
        exact hprev k ((hmem k).mpr ⟨hk2', by omega⟩) hklt hkd

/-- Witness for C1 at a concrete cohort of 2 points: the candidate
bound `min(6, 1) = 1` is below 2 and the selector returns `(1, 0)`
without searching. -/
theorem pick_cluster_count_spec_witness :
    pick_cluster_count wFit wSilNeg 2 = (1, 0) :=
  (pick_cluster_count_spec wFit wSilNeg 2).1 (by decide)

/-- C10: the Cluster Selector returns a count `k ≥ 2` only when some
non-degenerate candidate achieved a silhouette strictly greater than 0;
if every non-degenerate candidate scores at most 0 — even with 2 or
more distinct clusters — it returns `(1, 0)`. -/
theorem pick_cluster_count_needs_positive_silhouette (fit : ℕ → List ℕ) (sil : ℕ → ℚ)
    (n : ℕ) :
    (2 ≤ (pick_cluster_count fit sil n).1 →
      ∃ k, 2 ≤ k ∧ k ≤ min 6 (n - 1) ∧ degenerateFit (fit k) = false ∧ 0 < sil k) ∧
    ((∀ k, 2 ≤ k → k ≤ min 6 (n - 1) → degenerateFit (fit k) = false → sil k ≤ 0) →
      pick_cluster_count fit sil n = (1, 0)) := by
  by_cases hsmall : min 6 (n - 1) < 2
  · have hres : pick_cluster_count fit sil n = (1, 0) := by
      rw [pick_cluster_count, if_pos hsmall]
    constructor
    · rw [hres]
      intro h2
      exact absurd h2 (by decide)
    · intro _
      exact hres
  · have hres : pick_cluster_count fit sil n =
        pickLoop fit sil (List.range' 2 (min 6 (n - 1) - 1)) (1, 0) := by
      rw [pick_cluster_count, if_neg hsmall]
    have hmem : ∀ k, k ∈ List.range' 2 (min 6 (n - 1) - 1) ↔
        (2 ≤ k ∧ k ≤ min 6 (n - 1)) := by
      intro k
      rw [List.mem_range'_1]
      omega
    obtain ⟨h1, h2, h3⟩ :=
      pickLoop_spec fit sil (List.range' 2 (min 6 (n - 1) - 1))
        (List.pairwise_lt_range' 2 (min 6 (n - 1) - 1)) 1 (0 : ℚ)
    rw [hres]
    constructor
    · intro hk2
      rcases h3 with ⟨heq, _⟩ | ⟨hmem', hnd, hsil, hbs, _⟩
      · rw [heq] at hk2
        exact absurd hk2 (by decide)
      · obtain ⟨hb2, hble⟩ := (hmem _).mp hmem'
        exact ⟨_, hb2, hble, hnd, by rw [hsil]; exact hbs⟩
    · intro hall
      rcases h3 with ⟨heq, _⟩ | ⟨hmem', hnd, hsil, hbs, _⟩
      · exact heq
      · obtain ⟨hb2, hble⟩ := (hmem _).mp hmem'
        have := hall _ hb2 hble hnd
        rw [hsil] at this
        exact absurd hbs (not_lt.mpr this)

/-- Witness for C10 at a concrete search (4 points, candidates 2 and 3)
where every candidate silhouette is negative: the selector returns
`(1, 0)`. -/
theorem pick_cluster_count_needs_positive_silhouette_witness :
    pick_cluster_count wFit wSilNeg 4 = (1, 0) :=
  (pick_cluster_count_needs_positive_silhouette wFit wSilNeg 4).2
    (fun k _ _ _ => by norm_num [wSilNeg])

/-! C5 and C3 — the Cluster Summary. -/

/-- The cluster column of the summary frame is exactly the sorted list
of distinct labels. -/
theorem summarize_clusters_map_cluster (rows : List FeatureRow) (labels : List ℕ) :
    (summarize_clusters rows labels).map (·.cluster) = sortedUniqueLabels labels := by
  rw [summarize_clusters, List.map_map]
  have hcomp : (fun r : SummaryRow => r.cluster) ∘ summaryRowFor (rows.zip labels) = id := by
    funext cid
    rfl
  rw [hcomp, List.map_id]

/-- The sorted distinct labels carry no duplicate. -/
theorem sortedUniqueLabels_nodup (labels : List ℕ) : (sortedUniqueLabels labels).Nodup :=
  (List.perm_insertionSort (· ≤ ·) labels.dedup).symm.nodup (List.nodup_dedup labels)

/-- The sorted distinct labels are strictly increasing. -/
theorem sortedUniqueLabels_strict (labels : List ℕ) :
    (sortedUniqueLabels labels).Pairwise (· < ·) := by
  have hs : (sortedUniqueLabels labels).Pairwise (· ≤ ·) :=
    List.sorted_insertionSort _ _
  exact (hs.and (sortedUniqueLabels_nodup labels)).imp fun h => lt_of_le_of_ne h.1 h.2

/-- C5: the Cluster Summary's rows are ordered strictly ascending by
cluster label, and each row carries the distinct-client count and the
mean of each of the five raw numeric drivers for the records of its
label, each mean rounded to 2 decimal places. -/
theorem summarize_clusters_ordered_contents (rows : List FeatureRow) (labels : List ℕ) :
    ((summarize_clusters rows labels).map (·.cluster)).Pairwise (· < ·) ∧
    ∀ r ∈ summarize_clusters rows labels,
      r.total_clientes =
        ((clusterRows (rows.zip labels) r.cluster).map
          (fun p => p.1.cliente_id)).dedup.length ∧
      r.risco_inicial_medio = round2 (listMean ((clusterRows (rows.zip labels) r.cluster).map
        (fun p => (p.1.risco_inicial_score : ℚ)))) ∧
      r.cobertura_media = round2 (listMean ((clusterRows (rows.zip labels) r.cluster).map
        (fun p => p.1.cob_garantia))) ∧
      r.atraso_medio = round2 (listMean ((clusterRows (rows.zip labels) r.cluster).map
        (fun p => p.1.atraso))) ∧
      r.valor_contrato_medio = round2 (listMean
        ((clusterRows (rows.zip labels) r.cluster).filterMap (fun p => p.1.valor_contrato))) ∧
      r.saldo_atual_medio = round2 (listMean
        ((clusterRows (rows.zip labels) r.cluster).filterMap (fun p => p.1.saldo_atual))) := by
  constructor
  · rw [summarize_clusters_map_cluster]
    exact sortedUniqueLabels_strict labels
  · intro r hr
    rw [summarize_clusters] at hr
    obtain ⟨cid, _, rfl⟩ := List.mem_map.mp hr
    exact ⟨rfl, rfl, rfl, rfl, rfl, rfl⟩

/-- Filtering the (label, client) pairs by label commutes with taking
the pairs of the filtered records. -/
theorem filter_map_labelClientPair (l : List (FeatureRow × ℕ)) (cid : ℕ) :
    (l.map labelClientPair).filter (fun q => q.1 = cid) =
      (clusterRows l cid).map labelClientPair := by
  rw [clusterRows]
  induction l with
  | nil => rfl
  | cons p t ih =>
    by_cases hp : p.2 = cid
    · simp [List.filter_cons, labelClientPair, hp, ih]
    · simp [List.filter_cons, labelClientPair, hp, ih]

/-- One summary row's distinct-client count is the number of distinct
(label, client) pairs carrying its label. -/
theorem summaryRowFor_count_eq_fiber (paired : List (FeatureRow × ℕ)) (cid : ℕ) :
    (summaryRowFor paired cid).total_clientes =
      ((paired.map labelClientPair).filter (fun q => q.1 = cid)).toFinset.card := by
  rw [filter_map_labelClientPair]
  show ((clusterRows paired cid).map (fun p => p.1.cliente_id)).dedup.length = _
  have hmap : (clusterRows paired cid).map labelClientPair =
      ((clusterRows paired cid).map (fun p => p.1.cliente_id)).map (fun s => (cid, s)) := by
    rw [List.map_map]
    apply List.map_congr_left
    intro p hp
    have hcid : p.2 = cid := by
      have := (List.mem_filter.mp hp).2
      simpa using this
    simp [labelClientPair, Function.comp, hcid]
  rw [hmap]
  have himg : (((clusterRows paired cid).map (fun p => p.1.cliente_id)).map
        (fun s => (cid, s))).toFinset =
      ((clusterRows paired cid).map (fun p => p.1.cliente_id)).toFinset.image
        (fun s => (cid, s)) := by
    have := Multiset.toFinset_map (fun s : String => (cid, s))
      (((clusterRows paired cid).map (fun p => p.1.cliente_id)) : Multiset String)
    simpa using this
  rw [himg, Finset.card_image_of_injective _ (fun a b hab => congrArg Prod.snd hab)]
  exact (List.card_toFinset _).symm

/-- C3 (amended): the Cluster Summary has exactly one row per distinct
cluster label present, and the per-row distinct-client counts sum to the
number of distinct (cluster label, client identifier) pairs among the
retained records — at least the cohort's number of distinct clients,
with equality exactly when no client appears in two clusters, but not in
general. -/
theorem summarize_clusters_counts (rows : List FeatureRow) (labels : List ℕ) :
    (summarize_clusters rows labels).length = labels.dedup.length ∧
    ((summarize_clusters rows labels).map (·.total_clientes)).sum =
      (((rows.zip labels).map labelClientPair).dedup).length ∧
    (rows.length = labels.length →
      ((rows.map (·.cliente_id)).dedup).length ≤
        ((summarize_clusters rows labels).map (·.total_clientes)).sum) := by
  have hzip : ∀ x ∈ (rows.zip labels).map labelClientPair, x.1 ∈ labels.toFinset := by
    intro x hx
    obtain ⟨p, hp, rfl⟩ := List.mem_map.mp hx
    exact List.mem_toFinset.mpr (List.of_mem_zip hp).2
  have hfib : (((rows.zip labels).map labelClientPair).toFinset).card =
      ∑ b ∈ labels.toFinset,
        ((((rows.zip labels).map labelClientPair).toFinset).filter (fun x => x.1 = b)).card :=
    Finset.card_eq_sum_card_fiberwise fun x hx => hzip x (List.mem_toFinset.mp hx)
  have hkey : ((summarize_clusters rows labels).map (·.total_clientes)).sum =
      (((rows.zip labels).map labelClientPair).toFinset).card := by
    rw [summarize_clusters, List.map_map]
    have hcongr : ((sortedUniqueLabels labels).map
          ((fun r : SummaryRow => r.total_clientes) ∘ summaryRowFor (rows.zip labels))) =
        (sortedUniqueLabels labels).map (fun cid =>
          (((rows.zip labels).map labelClientPair).filter
            (fun q => q.1 = cid)).toFinset.card) :=
      List.map_congr_left fun cid _ => summaryRowFor_count_eq_fiber (rows.zip labels) cid
    rw [hcongr]
    have hsum := List.sum_toFinset (fun cid =>
        (((rows.zip labels).map labelClientPair).filter (fun q => q.1 = cid)).toFinset.card)
      (sortedUniqueLabels_nodup labels)
    rw [← hsum]
    have htf : (sortedUniqueLabels labels).toFinset = labels.toFinset := by
      rw [sortedUniqueLabels]
      rw [List.toFinset_eq_of_perm _ _ (List.perm_insertionSort _ _)]
      rw [List.toFinset_eq_iff_perm_dedup, List.dedup_idem]
    rw [htf, hfib]
    apply Finset.sum_congr rfl
    intro b _
    rw [List.toFinset_filter]
    simp only [decide_eq_true_eq]
  refine ⟨?_, ?_, ?_⟩
  · rw [summarize_clusters, List.length_map, sortedUniqueLabels]
    exact (List.perm_insertionSort _ _).length_eq
  · rw [hkey, List.card_toFinset]
  · intro h
    rw [hkey]
    have hsnd : ((rows.zip labels).map labelClientPair).map Prod.snd =
        rows.map (·.cliente_id) := by
      rw [List.map_map]
      have hfst : (rows.zip labels).map Prod.fst = rows :=
        List.map_fst_zip rows labels (le_of_eq h)
      calc (rows.zip labels).map (Prod.snd ∘ labelClientPair)
          = ((rows.zip labels).map Prod.fst).map (·.cliente_id) := by rw [List.map_map]; rfl
        _ = rows.map (·.cliente_id) := by rw [hfst]
    have himg : (rows.map (·.cliente_id)).toFinset =
        (((rows.zip labels).map labelClientPair).toFinset).image Prod.snd := by
      rw [← hsnd]
      have := Multiset.toFinset_map Prod.snd
        (((rows.zip labels).map labelClientPair) : Multiset (ℕ × String))
      simpa using this
    calc ((rows.map (·.cliente_id)).dedup).length
        = (rows.map (·.cliente_id)).toFinset.card := (List.card_toFinset _).symm
      _ = ((((rows.zip labels).map labelClientPair).toFinset).image Prod.snd).card := by
          rw [himg]
      _ ≤ (((rows.zip labels).map labelClientPair).toFinset).card := Finset.card_image_le

/-- C3 counterexample: two retained records of the same client, placed
in two different clusters — the per-cluster distinct-client counts sum
to 2 while the retained records carry a single distinct client
identifier, so the claimed equality fails. -/
theorem summarize_clusters_counts_counterexample :
    ((summarize_clusters exRows exLabels).map (·.total_clientes)).sum ≠
      ((exRows.map (·.cliente_id)).dedup).length := by
  decide

/-- Witness for the amended C3 at the concrete two-record input: the
distinct-client total is a lower bound of the summed counts. -/
theorem summarize_clusters_counts_witness :
    ((exRows.map (·.cliente_id)).dedup).length ≤
      ((summarize_clusters exRows exLabels).map (·.total_clientes)).sum :=
  (summarize_clusters_counts exRows exLabels).2.2 (by decide)

/-! C9 — the feature column set handed to the Factor Extractor. -/

/-- Cancel a shared prefix of a string append. -/
theorem string_append_left_cancel {a b c : String} (h : a ++ b = a ++ c) : b = c := by
  have hd : a.data ++ b.data = a.data ++ c.data := by
    rw [← String.data_append, ← String.data_append, h]
  have hbc : b.data = c.data := List.append_cancel_left hd
  calc b = String.mk b.data := rfl
    _ = String.mk c.data := by rw [hbc]
    _ = c := rfl

/-- Every one-hot modality category of a prepared cohort is an
upper-cased string, hence never the lowercase `"bacen"`, so no
indicator column can be named `"mod_bacen"`. -/
theorem oneHotValues_ne_bacen (df : List Contract) :
    ∀ v ∈ oneHotValues (prepare_segment df), v ≠ "bacen" := by
  intro v hv
  rw [oneHotValues] at hv
  have hv2 : v ∈ ((prepare_segment df).map (·.mod_bacen)).dedup :=
    ((List.perm_insertionSort _ _).mem_iff).mp hv
  have hv3 : v ∈ (prepare_segment df).map (·.mod_bacen) := List.mem_dedup.mp hv2
  obtain ⟨r, hr, rfl⟩ := List.mem_map.mp hv3
  simp only [prepare_segment] at hr
  obtain ⟨c, _, rfl⟩ := List.mem_map.mp hr
  show upperString (c.mod_bacen.getD "DESCONHECIDO") ≠ "bacen"
  exact upperString_ne_bacen _

/-- C9: the feature column list handed to the Factor Extractor is
exactly the five numeric drivers plus the one-hot modality indicator
columns (in the prepared frame's column order), and it never contains
the raw modality column `mod_bacen`. -/
theorem build_feature_columns (df : List Contract)
    (h : 5 ≤ (prepare_segment df).length) :
    feature_cols_of (prepared_columns (prepare_segment df)) =
      ["cob_garantia", "atraso", "valor_contrato", "saldo_atual", "risco_inicial_score"] ++
        (oneHotValues (prepare_segment df)).map (fun v => "mod_" ++ v) ∧
    (∀ col, col ∈ feature_cols_of (prepared_columns (prepare_segment df)) ↔
      (col ∈ NUMERIC_DRIVER_COLUMNS ∨
        col ∈ (oneHotValues (prepare_segment df)).map (fun v => "mod_" ++ v))) ∧
    "mod_bacen" ∉ feature_cols_of (prepared_columns (prepare_segment df)) := by
  have hmodv := oneHotValues_ne_bacen df
  have hkeep : ∀ col ∈ (oneHotValues (prepare_segment df)).map (fun v => "mod_" ++ v),
      isFeatureCol col = true := by
    intro col hcol
    obtain ⟨v, hvmem, rfl⟩ := List.mem_map.mp hcol
    have h1 : pyStartswith ("mod_" ++ v) "mod_" = true := by
      rw [pyStartswith, String.data_append]
      exact List.isPrefixOf_iff_prefix.mpr (List.prefix_append _ _)
    have h2 : (("mod_" ++ v) != "mod_bacen") = true := by
      simp only [bne_iff_ne, ne_eq]
      intro hcontra
      apply hmodv v hvmem
      exact string_append_left_cancel (a := "mod_") (by rw [hcontra]; decide)
    rw [isFeatureCol, h1, h2]
    rfl
  have hsplit : feature_cols_of (prepared_columns (prepare_segment df)) =
      (TARGET_COLUMNS ++ ["risco_inicial_score"]).filter isFeatureCol ++
        ((oneHotValues (prepare_segment df)).map
          (fun v => "mod_" ++ v)).filter isFeatureCol := by
    rw [prepared_columns, feature_cols_of, List.filter_append]
  have hstat : (TARGET_COLUMNS ++ ["risco_inicial_score"]).filter isFeatureCol =
      ["cob_garantia", "atraso", "valor_contrato", "saldo_atual", "risco_inicial_score"] := by
    decide
  have hone : ((oneHotValues (prepare_segment df)).map
        (fun v => "mod_" ++ v)).filter isFeatureCol =
      (oneHotValues (prepare_segment df)).map (fun v => "mod_" ++ v) :=
    List.filter_eq_self.mpr hkeep
  have hmain : feature_cols_of (prepared_columns (prepare_segment df)) =
      ["cob_garantia", "atraso", "valor_contrato", "saldo_atual", "risco_inicial_score"] ++
        (oneHotValues (prepare_segment df)).map (fun v => "mod_" ++ v) := by
    rw [hsplit, hstat, hone]
  have hperm : ∀ col : String, col ∈ (["cob_garantia", "atraso", "valor_contrato",
      "saldo_atual", "risco_inicial_score"] : List String) ↔
      col ∈ NUMERIC_DRIVER_COLUMNS := by
    intro col
    simp only [NUMERIC_DRIVER_COLUMNS, List.mem_cons, List.not_mem_nil, or_false]
    tauto
  refine ⟨hmain, ?_, ?_⟩
  · intro col
    rw [hmain, List.mem_append, hperm col]
  · rw [hmain, List.mem_append]
    rintro (hc | hc)
    · revert hc
      decide
    · obtain ⟨v, hvmem, hveq⟩ := List.mem_map.mp hc
      have hvb : v = "bacen" :=
        string_append_left_cancel (a := "mod_") (by rw [hveq]; decide)
      exact hmodv v hvmem hvb

/-- Witness for C9 at a concrete 5-record cohort: the raw modality
column is absent from the computed feature columns. -/
theorem build_feature_columns_witness :
    "mod_bacen" ∉ feature_cols_of (prepared_columns (prepare_segment wCohort)) :=
  (build_feature_columns wCohort (by decide)).2.2

/-- Witness for C5 at the concrete two-record input: the first summary
row's distinct-client count is the count over its own cluster's
records. -/
theorem summarize_clusters_ordered_contents_witness :
    (summaryRowFor (exRows.zip exLabels) 0).total_clientes =
      ((clusterRows (exRows.zip exLabels)
        (summaryRowFor (exRows.zip exLabels) 0).cluster).map
          (fun p => p.1.cliente_id)).dedup.length :=
  ((summarize_clusters_ordered_contents exRows exLabels).2
    (summaryRowFor (exRows.zip exLabels) 0)
    (by
      rw [summarize_clusters]
      exact List.mem_map_of_mem _ (by decide))).1

/-- Witness for the amended C6 at the concrete one-record cohort with a
missing modality code. -/
theorem prepare_segment_modality_imputation_witness :
    List.Forall₂
      (fun c r => r.mod_bacen = upperString (c.mod_bacen.getD "DESCONHECIDO") ∧
        (c.mod_bacen = none → r.mod_bacen = "DESCONHECIDO"))
      ([cNoMod].filter keepRow) (prepare_segment [cNoMod]) :=
  prepare_segment_modality_imputation [cNoMod]

/-- Witness for C7 at the concrete one-record cohort. -/
theorem prepare_segment_median_imputation_witness :
    List.Forall₂
      (fun c r =>
        (c.valor_contrato = none →
          r.valor_contrato = pdMedian (([cNoMod].filter keepRow).filterMap (·.valor_contrato))) ∧
        (∀ v, c.valor_contrato = some v → r.valor_contrato = some v) ∧
        (c.saldo_atual = none →
          r.saldo_atual = pdMedian (([cNoMod].filter keepRow).filterMap (·.saldo_atual))) ∧
        (∀ v, c.saldo_atual = some v → r.saldo_atual = some v))
      ([cNoMod].filter keepRow) (prepare_segment [cNoMod]) :=
  prepare_segment_median_imputation [cNoMod]
